import Mathlib

/-!
# Verification of the CertificateRequest creation pipeline

Shallow embedding of `cmd/ctl/pkg/create/certificaterequest.go` (cert-manager):
the translation pipeline certificate-spec → deterministic request name → key
material → signed CSR → issuance-request record.

The file is organised as:
* generic list helpers (chunking, exact-match stripping);
* a model of the standard base64/PEM textual envelope used by the pipeline's
  CSR output (`pem.EncodeToMemory` with the fixed "CERTIFICATE REQUEST" label);
* the data model (`Certificate`, `CertificateRequest`, keys, CSRs);
* models of the `pki`/`apiutil` helpers the file calls (these live in the same
  repository but outside the verified file; they are modelled from the spec);
* the translation of `Run`, `buildCertificateRequest` and `generateCSR`;
* the theorems, one per specification claim.
-/

set_option maxRecDepth 100000

namespace CertMgr

/-! ## List helpers -/

/-- Split a list into consecutive chunks of `n + 1` elements (the last chunk
may be shorter).  `chunksOf 63` gives the 64-column line wrapping used by the
PEM encoder. -/
def chunksOf (n : Nat) : List α → List (List α)
  | [] => []
  | x :: xs => (x :: xs).take (n + 1) :: chunksOf n ((x :: xs).drop (n + 1))
termination_by l => l.length
decreasing_by simp [List.length_drop]; omega

theorem chunksOf_flatten (n : Nat) : ∀ l : List α, (chunksOf n l).flatten = l
  | [] => by simp [chunksOf]
  | x :: xs => by
    rw [chunksOf]
    simp only [List.flatten_cons]
    rw [chunksOf_flatten n ((x :: xs).drop (n + 1))]
    exact List.take_append_drop _ _
termination_by l => l.length
decreasing_by simp [List.length_drop]; omega

theorem mem_of_mem_chunksOf {n : Nat} {l ch : List α} {c : α}
    (hch : ch ∈ chunksOf n l) (hc : c ∈ ch) : c ∈ l := by
  have : c ∈ (chunksOf n l).flatten := List.mem_flatten.mpr ⟨ch, hch, hc⟩
  rwa [chunksOf_flatten] at this

/-- Remove an exact leading run of elements, failing if it does not match. -/
def dropExact [DecidableEq α] : List α → List α → Option (List α)
  | [], l => some l
  | _ :: _, [] => none
  | p :: ps, c :: cs => if c = p then dropExact ps cs else none

theorem dropExact_append [DecidableEq α] (p r : List α) :
    dropExact p (p ++ r) = some r := by
  induction p with
  | nil => rfl
  | cons x xs ih => simp [dropExact, ih]

theorem takeWhile_append_cons (p : α → Bool) (l₁ : List α) (x : α) (l₂ : List α)
    (h₁ : ∀ c ∈ l₁, p c) (hx : ¬ p x) :
    (l₁ ++ x :: l₂).takeWhile p = l₁ := by
  induction l₁ with
  | nil => simp [List.takeWhile, hx]
  | cons y ys ih =>
    have hy : p y := h₁ y (List.mem_cons_self _ _)
    rw [List.cons_append, List.takeWhile_cons, if_pos hy,
      ih (fun c hc => h₁ c (List.mem_cons_of_mem _ hc))]

theorem dropWhile_append_cons (p : α → Bool) (l₁ : List α) (x : α) (l₂ : List α)
    (h₁ : ∀ c ∈ l₁, p c) (hx : ¬ p x) :
    (l₁ ++ x :: l₂).dropWhile p = x :: l₂ := by
  induction l₁ with
  | nil => simp [List.dropWhile, hx]
  | cons y ys ih =>
    have hy : p y := h₁ y (List.mem_cons_self _ _)
    rw [List.cons_append, List.dropWhile_cons, if_pos hy]
    exact ih (fun c hc => h₁ c (List.mem_cons_of_mem _ hc))

/-! ## Base64 (RFC 4648), as used by the PEM body -/

def b64alphabet : List Char :=
  "ABCDEFGHIJKLMNOPQRSTUVWXYZabcdefghijklmnopqrstuvwxyz0123456789+/".toList

/-- Character for a 6-bit value. -/
def b64char (n : Nat) : Char := b64alphabet.getD n 'A'

/-- 6-bit value of a base64 character. -/
def b64dec (c : Char) : Nat := b64alphabet.indexOf c

/-- Encode a byte list (each entry `< 256`) into base64 characters with
trailing `'='` padding. -/
def b64encode : List Nat → List Char
  | [] => []
  | [a] => [b64char (a / 4), b64char (a % 4 * 16), '=', '=']
  | [a, b] => [b64char (a / 4), b64char (a % 4 * 16 + b / 16), b64char (b % 16 * 4), '=']
  | a :: b :: c :: rest =>
    b64char (a / 4) :: b64char (a % 4 * 16 + b / 16) ::
      b64char (b % 16 * 4 + c / 64) :: b64char (c % 64) :: b64encode rest

/-- Decode base64 characters back to bytes. -/
def b64decode : List Char → Option (List Nat)
  | [] => some []
  | c1 :: c2 :: c3 :: c4 :: rest =>
    if c3 = '=' then
      if rest = [] ∧ c4 = '=' then some [b64dec c1 * 4 + b64dec c2 / 16] else none
    else if c4 = '=' then
      if rest = [] then
        some [b64dec c1 * 4 + b64dec c2 / 16, b64dec c2 % 16 * 16 + b64dec c3 / 4]
      else none
    else
      (b64decode rest).map fun bs =>
        (b64dec c1 * 4 + b64dec c2 / 16) :: (b64dec c2 % 16 * 16 + b64dec c3 / 4) ::
          (b64dec c3 % 4 * 64 + b64dec c4) :: bs
  | _ => none

theorem b64dec_b64char {n : Nat} (h : n < 64) : b64dec (b64char n) = n := by
  have : ∀ m : Fin 64, b64dec (b64char m.val) = m.val := by decide
  exact this ⟨n, h⟩

theorem b64char_mem : ∀ n, b64char n ∈ b64alphabet := by
  intro n
  by_cases h : n < b64alphabet.length
  · rw [b64char, b64alphabet.getD_eq_getElem 'A' h]
    exact List.getElem_mem h
  · rw [b64char, List.getD_eq_default _ _ (Nat.le_of_not_lt h)]
    decide

theorem b64alphabet_chars : ∀ c ∈ b64alphabet, c ≠ '=' ∧ c ≠ '-' ∧ c ≠ '\n' := by
  decide

theorem b64char_ne_eq (n : Nat) : b64char n ≠ '=' := (b64alphabet_chars _ (b64char_mem n)).1

theorem b64char_ne_dash (n : Nat) : b64char n ≠ '-' := (b64alphabet_chars _ (b64char_mem n)).2.1

theorem b64char_ne_nl (n : Nat) : b64char n ≠ '\n' := (b64alphabet_chars _ (b64char_mem n)).2.2

theorem b64encode_chars : ∀ (l : List Nat), ∀ c ∈ b64encode l, c ≠ '-' ∧ c ≠ '\n'
  | [] => by simp [b64encode]
  | [a] => by
    simp only [b64encode, List.mem_cons, List.not_mem_nil, or_false]
    rintro c (rfl | rfl | rfl | rfl) <;>
      first
        | exact ⟨b64char_ne_dash _, b64char_ne_nl _⟩
        | exact ⟨by decide, by decide⟩
  | [a, b] => by
    simp only [b64encode, List.mem_cons, List.not_mem_nil, or_false]
    rintro c (rfl | rfl | rfl | rfl) <;>
      first
        | exact ⟨b64char_ne_dash _, b64char_ne_nl _⟩
        | exact ⟨by decide, by decide⟩
  | a :: b :: c :: rest => by
    simp only [b64encode, List.mem_cons]
    rintro x (rfl | rfl | rfl | rfl | hx)
    · exact ⟨b64char_ne_dash _, b64char_ne_nl _⟩
    · exact ⟨b64char_ne_dash _, b64char_ne_nl _⟩
    · exact ⟨b64char_ne_dash _, b64char_ne_nl _⟩
    · exact ⟨b64char_ne_dash _, b64char_ne_nl _⟩
    · exact b64encode_chars rest x hx

/-- Base64 round-trip on byte lists. -/
theorem b64decode_b64encode :
    ∀ (l : List Nat), (∀ b ∈ l, b < 256) → b64decode (b64encode l) = some l
  | [] => fun _ => rfl
  | [a] => by
    intro h
    have ha : a < 256 := h a (by simp)
    have h1 : a / 4 < 64 := by omega
    have h2 : a % 4 * 16 < 64 := by omega
    simp only [b64encode, b64decode, b64dec_b64char h1, b64dec_b64char h2]
    simp
    omega
  | [a, b] => by
    intro h
    have ha : a < 256 := h a (by simp)
    have hb : b < 256 := h b (by simp)
    have h1 : a / 4 < 64 := by omega
    have h2 : a % 4 * 16 + b / 16 < 64 := by omega
    have h3 : b % 16 * 4 < 64 := by omega
    have hne : b64char (b % 16 * 4) ≠ '=' := b64char_ne_eq _
    simp only [b64encode, b64decode, b64dec_b64char h1, b64dec_b64char h2,
      b64dec_b64char h3]
    simp [hne]
    omega
  | a :: b :: c :: rest => by
    intro h
    have ha : a < 256 := h a (by simp)
    have hb : b < 256 := h b (by simp)
    have hc : c < 256 := h c (by simp)
    have h1 : a / 4 < 64 := by omega
    have h2 : a % 4 * 16 + b / 16 < 64 := by omega
    have h3 : b % 16 * 4 + c / 64 < 64 := by omega
    have h4 : c % 64 < 64 := by omega
    have hne3 : b64char (b % 16 * 4 + c / 64) ≠ '=' := b64char_ne_eq _
    have hne4 : b64char (c % 64) ≠ '=' := b64char_ne_eq _
    have ih := b64decode_b64encode rest (fun x hx => h x (by simp [hx]))
    simp only [b64encode, b64decode, b64dec_b64char h1, b64dec_b64char h2,
      b64dec_b64char h3, b64dec_b64char h4, ih]
    simp [hne3, hne4]
    omega

/-! ## The PEM textual envelope

Model of Go's `encoding/pem` as used here: `pem.EncodeToMemory` writes
`-----BEGIN <label>-----`, the base64 body wrapped at 64 columns (every line,
including the last, newline-terminated), and `-----END <label>-----`;
`pem.Decode` parses the envelope back to the label and the raw DER bytes. -/

def pemBeginTag : List Char := "-----BEGIN ".toList

def pemEndTag : List Char := "-----END ".toList

def pemDashesNl : List Char := "-----\n".toList

/-- Base64 body wrapped at 64 columns, each line newline-terminated. -/
def pemBody (bytes : List Nat) : List Char :=
  ((chunksOf 63 (b64encode bytes)).map (fun line => line ++ ['\n'])).flatten

/-- `pem.EncodeToMemory` on a block with the given label and bytes. -/
def pemEncodeToMemory (label : List Char) (bytes : List Nat) : List Char :=
  pemBeginTag ++ label ++ pemDashesNl ++ pemBody bytes ++ pemEndTag ++ label ++ pemDashesNl

/-- `pem.Decode`: parse an envelope back into its label and DER bytes.
The label is the run of characters after `-----BEGIN ` up to the next dash;
the body is everything up to the footer's first dash, newline-stripped and
base64-decoded; the footer must close the same label and end the input. -/
def pemDecode (l : List Char) : Option (List Char × List Nat) :=
  (dropExact pemBeginTag l).bind fun r1 =>
    (dropExact pemDashesNl (r1.dropWhile (fun c => c ≠ '-'))).bind fun r2 =>
      (dropExact (pemEndTag ++ r1.takeWhile (fun c => c ≠ '-') ++ pemDashesNl)
          (r2.dropWhile (fun c => c ≠ '-'))).bind fun r3 =>
        if r3 = [] then
          (b64decode ((r2.takeWhile (fun c => c ≠ '-')).filter (fun c => c ≠ '\n'))).map
            fun bytes => (r1.takeWhile (fun c => c ≠ '-'), bytes)
        else none

theorem pemBody_chars {bytes : List Nat} :
    ∀ c ∈ pemBody bytes, c = '\n' ∨ c ∈ b64encode bytes := by
  intro c hc
  rcases List.mem_flatten.mp hc with ⟨line, hline, hcl⟩
  rcases List.mem_map.mp hline with ⟨chunk, hchunk, rfl⟩
  rcases List.mem_append.mp hcl with h | h
  · exact Or.inr (mem_of_mem_chunksOf hchunk h)
  · simp at h
    exact Or.inl h

theorem pemBody_no_dash {bytes : List Nat} : ∀ c ∈ pemBody bytes, c ≠ '-' := by
  intro c hc
  rcases pemBody_chars c hc with rfl | h
  · decide
  · exact (b64encode_chars bytes c h).1

/-- Stripping the newlines from the wrapped body recovers the base64 text. -/
theorem pemBody_filter (bytes : List Nat) :
    (pemBody bytes).filter (fun c => c ≠ '\n') = b64encode bytes := by
  have key : ∀ L : List (List Char), (∀ ch ∈ L, ∀ c ∈ ch, c ≠ '\n') →
      (List.filter (fun c => c ≠ '\n') ((L.map (fun line => line ++ ['\n'])).flatten)) =
        L.flatten := by
    intro L
    induction L with
    | nil => intro _; rfl
    | cons ch rest ih =>
      intro h
      simp only [List.map_cons, List.flatten_cons, List.filter_append]
      rw [ih (fun x hx => h x (List.mem_cons_of_mem _ hx))]
      have hch : List.filter (fun c => decide (c ≠ '\n')) ch = ch :=
        List.filter_eq_self.mpr (fun c hc => by
          simpa using h ch (List.mem_cons_self _ _) c hc)
      have hnl : List.filter (fun c => decide (c ≠ '\n')) ['\n'] = [] := by decide
      rw [hch, hnl, List.append_nil]
  rw [pemBody, key _ ?_, chunksOf_flatten]
  intro ch hch c hc
  exact (b64encode_chars bytes c (mem_of_mem_chunksOf hch hc)).2

/-- PEM round-trip: decoding an encoded block recovers the label and bytes. -/
theorem pemDecode_pemEncodeToMemory (label : List Char) (bytes : List Nat)
    (hbytes : ∀ b ∈ bytes, b < 256) (hlabel : ∀ c ∈ label, c ≠ '-') :
    pemDecode (pemEncodeToMemory label bytes) = some (label, bytes) := by
  have hp : ∀ c ∈ label, (fun c => decide (c ≠ '-')) c = true := by
    intro c hc; simpa using hlabel c hc
  have hbody : ∀ c ∈ pemBody bytes, (fun c => decide (c ≠ '-')) c = true := by
    intro c hc; simpa using pemBody_no_dash c hc
  have hdash : pemDashesNl = '-' :: "----\n".toList := by decide
  have hend : pemEndTag = '-' :: "----END ".toList := by decide
  have harg : pemEncodeToMemory label bytes =
      pemBeginTag ++ (label ++ '-' ::
        ("----\n".toList ++ (pemBody bytes ++ '-' ::
          ("----END ".toList ++ (label ++ pemDashesNl))))) := by
    simp [pemEncodeToMemory, hdash, hend]
  rw [pemDecode, harg, dropExact_append]
  simp only [Option.bind]
  rw [takeWhile_append_cons _ label _ _ hp (by decide),
    dropWhile_append_cons _ label _ _ hp (by decide)]
  have hcons2 :
      '-' :: ("----\n".toList ++ (pemBody bytes ++ '-' ::
          ("----END ".toList ++ (label ++ pemDashesNl)))) =
        pemDashesNl ++ (pemBody bytes ++ '-' ::
          ("----END ".toList ++ (label ++ pemDashesNl))) := by
    simp [hdash]
  rw [hcons2, dropExact_append]
  simp only [Option.bind]
  rw [takeWhile_append_cons _ _ _ _ hbody (by decide),
    dropWhile_append_cons _ _ _ _ hbody (by decide)]
  have hcons3 :
      '-' :: ("----END ".toList ++ (label ++ pemDashesNl)) =
        (pemEndTag ++ label ++ pemDashesNl) ++ [] := by
    simp [hend]
  rw [hcons3, dropExact_append]
  simp only [Option.bind, if_pos rfl]
  rw [pemBody_filter, b64decode_b64encode bytes hbytes]
  rfl

/-! ## Association-list model of Go string maps

Go's `map[string]string` values are modelled as association lists whose keys
are unique (the Go map invariant).  `mapInsert` is `m[k] = v` (overwrite or
append), `mapLookup` is `m[k]`, and `copyMap` is the
`make` + `for k, v := range m` copy loop. -/

def mapLookup : List (String × String) → String → Option String
  | [], _ => none
  | (k', v) :: rest, k => if k' = k then some v else mapLookup rest k

def mapInsert : List (String × String) → String → String → List (String × String)
  | [], k, v => [(k, v)]
  | (k', v') :: rest, k, v =>
    if k' = k then (k, v) :: rest else (k', v') :: mapInsert rest k v

def copyMap (m : List (String × String)) : List (String × String) :=
  m.foldl (fun acc kv => mapInsert acc kv.1 kv.2) []

theorem mapLookup_mapInsert (m : List (String × String)) (k v k' : String) :
    mapLookup (mapInsert m k v) k' = if k = k' then some v else mapLookup m k' := by
  induction m with
  | nil =>
    by_cases h : k = k' <;> simp [mapInsert, mapLookup, h]
  | cons kv rest ih =>
    obtain ⟨k₀, v₀⟩ := kv
    by_cases h0 : k₀ = k
    · subst h0
      by_cases h : k₀ = k' <;> simp [mapInsert, mapLookup, h]
    · simp only [mapInsert, if_neg h0, mapLookup]
      by_cases h : k₀ = k'
      · have hkk' : ¬ k = k' := fun he => h0 (h.trans he.symm)
        simp [mapLookup, h, hkk']
      · simp [mapLookup, h, ih]

theorem mapInsert_append_of_not_mem (m : List (String × String)) (k v : String)
    (h : k ∉ m.map Prod.fst) : mapInsert m k v = m ++ [(k, v)] := by
  induction m with
  | nil => rfl
  | cons kv rest ih =>
    obtain ⟨k₀, v₀⟩ := kv
    simp only [List.map_cons, List.mem_cons] at h
    push_neg at h
    have hne : ¬ k₀ = k := fun hc => h.1 hc.symm
    simp only [mapInsert, if_neg hne, ih h.2, List.cons_append]

/-- Copying a map with unique keys reproduces it entry by entry. -/
theorem copyMap_eq (m : List (String × String)) (h : (m.map Prod.fst).Nodup) :
    copyMap m = m := by
  suffices key : ∀ acc, ((acc ++ m).map Prod.fst).Nodup →
      m.foldl (fun acc kv => mapInsert acc kv.1 kv.2) acc = acc ++ m by
    simpa [copyMap] using key [] (by simpa using h)
  clear h
  induction m with
  | nil => intro acc _; simp [List.foldl]
  | cons kv rest ih =>
    intro acc hacc
    obtain ⟨k₀, v₀⟩ := kv
    have hacc' : (((acc ++ [(k₀, v₀)]) ++ rest).map Prod.fst).Nodup := by
      simpa [List.append_assoc] using hacc
    have hnotmem : k₀ ∉ acc.map Prod.fst := by
      intro hmem
      rw [List.map_append, List.nodup_append] at hacc
      exact hacc.2.2 hmem (by simp)
    simp only [List.foldl_cons]
    rw [mapInsert_append_of_not_mem acc k₀ v₀ hnotmem, ih (acc ++ [(k₀, v₀)]) hacc']
    simp

/-! ## Data model

The `Certificate` spec fields used by the pipeline
(`v1alpha2.CertificateSpec`), and the produced `CertificateRequest`.
Go `[]byte` values are `List Nat` with entries `< 256`; the textual PEM
output is `List Char`.  `*metav1.Duration` is `Option Nat`. -/

inductive KeyAlgorithm
  | rsa
  | ecdsa
deriving DecidableEq

inductive KeyEncoding
  | pkcs1
  | pkcs8
deriving DecidableEq

/-- Opaque key-pair material: the algorithm/size choice plus abstract
material drawn from the entropy source. -/
structure PrivateKey where
  alg : KeyAlgorithm
  size : Nat
  material : Nat
deriving DecidableEq

structure PublicKey where
  alg : KeyAlgorithm
  size : Nat
  material : Nat
deriving DecidableEq

/-- The public half determined by a private key (abstract derivation). -/
def publicKeyOf (k : PrivateKey) : PublicKey := ⟨k.alg, k.size, k.material + 1⟩

/-- `cmmeta.ObjectReference`: the issuer reference. -/
structure IssuerRef where
  name : String
  kind : String
  group : String
deriving DecidableEq

structure CertificateSpec where
  commonName : String
  dnsNames : List String
  secretName : String
  duration : Option Nat
  issuerRef : IssuerRef
  isCA : Bool
  usages : List String
  keyAlgorithm : KeyAlgorithm
  keySize : Nat
  keyEncoding : KeyEncoding
deriving DecidableEq

/-- A `v1alpha2.Certificate`: object metadata (`Name`, `Namespace`,
`Annotations` — here `annots` — and `Labels`) plus the spec. -/
structure Certificate where
  name : String
  ns : String
  annots : List (String × String)
  labels : List (String × String)
  spec : CertificateSpec
deriving DecidableEq

structure CertificateRequestSpec where
  csrPEM : List Char
  duration : Option Nat
  issuerRef : IssuerRef
  isCA : Bool
  usages : List String
deriving DecidableEq

/-- A `v1alpha2.CertificateRequest`: `ObjectMeta.GenerateName`,
`ObjectMeta.Annotations` (`annots`), `ObjectMeta.Labels`, and the spec. -/
structure CertificateRequest where
  generateName : String
  annots : List (String × String)
  labels : List (String × String)
  spec : CertificateRequestSpec
deriving DecidableEq

/-- Modelled from the spec: the two injected keys
`v1alpha2.CRPrivateKeyAnnotationKey` (binding the spec's secret-name) and
`v1alpha2.CertificateNameKey` (binding the spec's name); the constant
declarations live outside the verified file. -/
def crPrivateKeyAnnotKey : String := "cert-manager.io/private-key-secret-name"

/-- Modelled from the spec: see `crPrivateKeyAnnotKey`. -/
def certificateNameKey : String := "cert-manager.io/certificate-name"

/-- The spec's error taxonomy for the pipeline's collaborators. -/
inductive PkiError
  | unsupportedAlgorithm
  | generationFailure
  | unsupportedEncoding
  | malformedKeyData
  | invalidSpec
  | incompatibleKeyAlgorithm
  | hashingFailure
deriving DecidableEq

def PkiError.message : PkiError → String
  | .unsupportedAlgorithm => "unsupported private key algorithm"
  | .generationFailure => "failed to generate key material"
  | .unsupportedEncoding => "unsupported private key encoding"
  | .malformedKeyData => "error decoding private key PEM block"
  | .invalidSpec => "no common name or subject alt names found in certificate"
  | .incompatibleKeyAlgorithm => "incompatible signature algorithm for key"
  | .hashingFailure => "error hashing certificate spec"

/-! ## Byte-level serialisation helpers (DER-style, bytes `< 256`) -/

def strBytes (s : String) : List Nat := s.data.map fun c => c.toNat % 256

/-- Little-endian base-256 digit expansion (`fuel` bounds the recursion
structurally; `n` digits always suffice). -/
def natBytesAux : Nat → Nat → List Nat
  | 0, _ => []
  | fuel + 1, n => if n = 0 then [] else n % 256 :: natBytesAux fuel (n / 256)

def natBytes (n : Nat) : List Nat := natBytesAux n n

/-- Unsigned CSR structure: subject + subject-alternative names,
built strictly from the certificate spec. -/
structure CSR where
  commonName : String
  dnsNames : List String
deriving DecidableEq

def csrBytes (c : CSR) : List Nat :=
  strBytes c.commonName ++ 0 :: (c.dnsNames.map fun s => strBytes s ++ [0]).flatten

def algByte : KeyAlgorithm → Nat
  | .rsa => 0
  | .ecdsa => 1

/-- 32-bit FNV-1a over a byte list (the content hash behind the
deterministic request name and the model signature). -/
def fnv32 (l : List Nat) : Nat :=
  l.foldl (fun h b => (h ^^^ b) * 16777619 % 4294967296) 2166136261

/-- Model signature: content hash of the signed structure bound to the
signing key's material. -/
def sigOf (k : PrivateKey) (c : CSR) : Nat := fnv32 (csrBytes c) + k.material

/-- The signed CSR structure before DER flattening: the built CSR, the
embedded public key, and the signature. -/
structure SignedCSRData where
  csr : CSR
  publicKey : PublicKey
  signature : Nat
deriving DecidableEq

/-- DER-style flattening of a signed CSR (0x30 SEQUENCE tag, then the
zero-separated fields). -/
def serializeSignedCSR (d : SignedCSRData) : List Nat :=
  48 :: csrBytes d.csr ++ 0 :: algByte d.publicKey.alg :: natBytes d.publicKey.size ++
    0 :: natBytes d.publicKey.material ++ 0 :: natBytes d.signature

theorem strBytes_lt (s : String) : ∀ b ∈ strBytes s, b < 256 := by
  intro b hb
  rcases List.mem_map.mp hb with ⟨c, _, rfl⟩
  exact Nat.mod_lt _ (by norm_num)

theorem natBytesAux_lt : ∀ (fuel n : Nat), ∀ b ∈ natBytesAux fuel n, b < 256 := by
  intro fuel
  induction fuel with
  | zero => intro n b hb; simp [natBytesAux] at hb
  | succ f ih =>
    intro n b hb
    by_cases h : n = 0
    · simp [natBytesAux, h] at hb
    · simp only [natBytesAux, if_neg h, List.mem_cons] at hb
      rcases hb with rfl | hb
      · exact Nat.mod_lt _ (by norm_num)
      · exact ih _ b hb

theorem natBytes_lt (n : Nat) : ∀ b ∈ natBytes n, b < 256 :=
  natBytesAux_lt n n

theorem csrBytes_lt (c : CSR) : ∀ b ∈ csrBytes c, b < 256 := by
  intro b hb
  rcases List.mem_append.mp hb with h | h
  · exact strBytes_lt _ _ h
  · rcases List.mem_cons.mp h with rfl | h
    · norm_num
    · rcases List.mem_flatten.mp h with ⟨l, hl, hbl⟩
      rcases List.mem_map.mp hl with ⟨s, _, rfl⟩
      rcases List.mem_append.mp hbl with h | h
      · exact strBytes_lt _ _ h
      · simp at h
        omega

/-- Every byte of the flattened signed CSR is `< 256`. -/
theorem serializeSignedCSR_lt (d : SignedCSRData) :
    ∀ b ∈ serializeSignedCSR d, b < 256 := by
  intro b hb
  simp only [serializeSignedCSR, List.mem_cons, List.mem_append] at hb
  rcases hb with (((rfl | hb) | rfl | rfl | hb) | rfl | hb) | rfl | hb
  · norm_num
  · exact csrBytes_lt _ _ hb
  · norm_num
  · cases d.publicKey.alg <;> norm_num [algByte]
  · exact natBytes_lt _ _ hb
  · norm_num
  · exact natBytes_lt _ _ hb
  · norm_num
  · exact natBytes_lt _ _ hb

/-! ## Modelled collaborators: the `pki` and `apiutil` packages

These functions are called by `certificaterequest.go` but are declared in the
same repository outside the verified file, so they are modelled from the
specification. -/

/-- Modelled from the spec: the supported key algorithm/size set of
`KeyGenerator` — RSA with an allowed bit length or an elliptic-curve choice
from a fixed allowed set; a key size of `0` is unsupported. -/
def supportedKeyParameters : KeyAlgorithm → Nat → Bool
  | .rsa, n => n = 2048 || n = 4096 || n = 8192
  | .ecdsa, n => n = 256 || n = 384 || n = 521

namespace pki

/-- Modelled from the spec: `pki.GeneratePrivateKeyForCertificate`
(`generate(spec) -> PrivateKey | Error`).  The cryptographically secure
randomness source is the explicit `entropy` argument; an algorithm/size
choice outside the supported set is `UnsupportedAlgorithm`. -/
def generatePrivateKeyForCertificate (entropy : Nat) (crt : Certificate) :
    Except PkiError PrivateKey :=
  if supportedKeyParameters crt.spec.keyAlgorithm crt.spec.keySize then
    .ok ⟨crt.spec.keyAlgorithm, crt.spec.keySize, entropy⟩
  else
    .error .unsupportedAlgorithm

/-- Wire-format tag of a key-encoding choice. -/
def encTag : KeyEncoding → Nat
  | .pkcs1 => 0
  | .pkcs8 => 1

/-- Modelled from the spec: `pki.EncodePrivateKey`
(`encode(key, encoding) -> bytes`); the encoding choice selects the wire
format of the key block.  Keys are opaque, so the block is the tagged
serialisation of the key's fields. -/
def encodePrivateKey (k : PrivateKey) (e : KeyEncoding) : Except PkiError (List Nat) :=
  .ok [encTag e, algByte k.alg, k.size, k.material]

/-- Modelled from the spec: `pki.DecodePrivateKeyBytes`
(`decode(bytes) -> PrivateKey | Error`, `MalformedKeyData` on corrupt
bytes); accepts either supported wire format. -/
def decodePrivateKeyBytes : List Nat → Except PkiError PrivateKey
  | [e, a, s, m] =>
    if e = 0 ∨ e = 1 then
      if a = 0 then .ok ⟨.rsa, s, m⟩
      else if a = 1 then .ok ⟨.ecdsa, s, m⟩
      else .error .malformedKeyData
    else .error .malformedKeyData
  | _ => .error .malformedKeyData

/-- Modelled from the spec: `pki.GenerateCSR` (`build(spec) -> CSR | Error`):
subject and subject-alternative names strictly from the spec; `InvalidSpec`
when there is no common name and no SAN. -/
def generateCSR (crt : Certificate) : Except PkiError CSR :=
  if crt.spec.commonName = "" ∧ crt.spec.dnsNames = [] then .error .invalidSpec
  else .ok ⟨crt.spec.commonName, crt.spec.dnsNames⟩

/-- Modelled from the spec: `pki.EncodeCSR` (`sign(csr, key) -> SignedCSR`):
the signed structure embeds the signer's public key and a signature produced
with the signer, DER-flattened; the signature algorithm is selected from the
key's own algorithm, so it is always compatible with the key. -/
def encodeCSR (csr : CSR) (k : PrivateKey) : Except PkiError (List Nat) :=
  .ok (serializeSignedCSR ⟨csr, publicKeyOf k, sigOf k csr⟩)

end pki

/-- The issuance-relevant subset of a certificate: the fields whose content
determines the deterministic request identifier (subject, SANs, usages, key
type/size, CA flag, duration, issuer reference, and the stable name used as
the human-readable prefix).  Labels, annotations, namespace, secret name and
the key-encoding choice are not issuance-relevant. -/
structure IssuanceRelevant where
  name : String
  commonName : String
  dnsNames : List String
  usages : List String
  keyAlgorithm : KeyAlgorithm
  keySize : Nat
  isCA : Bool
  duration : Option Nat
  issuerRef : IssuerRef
deriving DecidableEq

def issuanceRelevant (crt : Certificate) : IssuanceRelevant :=
  ⟨crt.name, crt.spec.commonName, crt.spec.dnsNames, crt.spec.usages,
    crt.spec.keyAlgorithm, crt.spec.keySize, crt.spec.isCA, crt.spec.duration,
    crt.spec.issuerRef⟩

/-- Stable canonical byte serialisation of the issuance-relevant fields. -/
def relevantBytes (r : IssuanceRelevant) : List Nat :=
  strBytes r.name ++ 0 :: strBytes r.commonName ++
    0 :: (r.dnsNames.map fun s => strBytes s ++ [0]).flatten ++
    0 :: (r.usages.map fun s => strBytes s ++ [0]).flatten ++
    algByte r.keyAlgorithm :: natBytes r.keySize ++
    (if r.isCA then 1 else 0) :: (match r.duration with
      | none => [0]
      | some d => 1 :: natBytes d ++ [0]) ++
    strBytes r.issuerRef.name ++ 0 :: strBytes r.issuerRef.kind ++
    0 :: strBytes r.issuerRef.group

/-- The request identifier of an issuance-relevant field set: the stable
name, a separator, and the content hash rendered in decimal. -/
def requestNameOf (r : IssuanceRelevant) : String :=
  r.name ++ "-" ++ toString (fnv32 (relevantBytes r))

namespace apiutil

/-- Modelled from the spec: `apiutil.ComputeCertificateRequestName`
(`computeName(spec) -> RequestIdentifier | Error`): canonicalise the
issuance-relevant subset of the spec, hash it, and combine the digest with a
human-readable prefix derived from the spec's name.  `HashingFailure` is not
expected in normal operation, and the model's canonical encoding cannot
fail, so the result is always `ok`. -/
def computeCertificateRequestName (crt : Certificate) : Except PkiError String :=
  .ok (requestNameOf (issuanceRelevant crt))

end apiutil

/-! ## The verified file: `generateCSR`, `buildCertificateRequest`, `Run`

Each function is translated together with an execution trace of the
successfully completed pipeline steps, so that the spec's state machine
`SpecLoaded → NameComputed → KeyGenerated → KeyEncoded → CSRBuilt →
CSRSigned → RequestAssembled → Done` can be checked.  The untraced
functions are the first projections. -/

/-- A completed pipeline step. -/
inductive Step
  | nameComputed
  | keyGenerated
  | keyEncoded
  | csrBuilt
  | csrSigned
  | requestAssembled
deriving DecidableEq

/-- The fixed order of pipeline steps. -/
def canonicalSteps : List Step :=
  [.nameComputed, .keyGenerated, .keyEncoded, .csrBuilt, .csrSigned, .requestAssembled]

/-- `generateCSR(crt, pk)` (lines 227–248): build the CSR from the
certificate, decode the encoded private key, sign (DER-encode) the CSR with
the decoded key, and wrap the DER bytes in the PEM envelope with the fixed
`CERTIFICATE REQUEST` label.  Traced variant. -/
def generateCSRT (crt : Certificate) (pk : List Nat) :
    Except String (List Char) × List Step :=
  match pki.generateCSR crt with
  | .error e => (.error e.message, [])
  | .ok csr =>
    match pki.decodePrivateKeyBytes pk with
    | .error e => (.error e.message, [.csrBuilt])
    | .ok signer =>
      match pki.encodeCSR csr signer with
      | .error e => (.error e.message, [.csrBuilt])
      | .ok csrDER =>
        (.ok (pemEncodeToMemory "CERTIFICATE REQUEST".toList csrDER),
          [.csrBuilt, .csrSigned])

def generateCSR (crt : Certificate) (pk : List Nat) : Except String (List Char) :=
  (generateCSRT crt pk).1

/-- The annotation-map construction of `buildCertificateRequest`
(lines 202–206): a fresh map pre-sized for the copy, the copy loop, then the
two injected keys. -/
def buildAnnots (m : List (String × String)) (secretName crtName : String) :
    List (String × String) :=
  mapInsert (mapInsert (copyMap m) crPrivateKeyAnnotKey secretName)
    certificateNameKey crtName

/-- `buildCertificateRequest(crt, name, pk)` (lines 196–225): generate the
signed CSR PEM, build the annotation map, and assemble the
`CertificateRequest` record.  The `name` argument is accepted but, as in the
source, not used in the record.  Traced variant. -/
def buildCertificateRequestT (crt : Certificate) (name : String) (pk : List Nat) :
    Except String CertificateRequest × List Step :=
  match generateCSRT crt pk with
  | (.error e, tr) => (.error e, tr)
  | (.ok csrPEM, tr) =>
    (.ok
      { generateName := crt.name ++ "-"
        annots := buildAnnots crt.annots crt.spec.secretName crt.name
        labels := crt.labels
        spec :=
          { csrPEM := csrPEM
            duration := crt.spec.duration
            issuerRef := crt.spec.issuerRef
            isCA := crt.spec.isCA
            usages := crt.spec.usages } },
      tr ++ [.requestAssembled])

def buildCertificateRequest (crt : Certificate) (name : String) (pk : List Nat) :
    Except String CertificateRequest :=
  (buildCertificateRequestT crt name pk).1

/-- A decoded input object: either a certificate or some other resource.
Models the result of the resource builder plus `scheme.ConvertToVersion`
and the `*v1alpha2.Certificate` type assertion of `Run`. -/
inductive RuntimeObject
  | certificate (crt : Certificate)
  | other (kind : String)

/-- Conversion + type assertion (lines 151–160); a non-certificate object
fails the assertion. -/
def convertToCertificate : RuntimeObject → Except String Certificate
  | .certificate crt => .ok crt
  | .other _ => .error "decoded object is not a v1alpha2 Certificate"

/-- `Run` (lines 119–194), from the resolved object list onward: exactly one
object is accepted; it is converted to a `Certificate`; then the pipeline
computes the expected request name, generates and encodes the private key,
builds the request record, and submits it through the client collaborator
(`clientCreate`) in the resolved namespace.  The result pairs the returned
error (or unit success) with the trace of completed pipeline steps. -/
def run (infos : List RuntimeObject) (entropy : Nat) (cmdNamespace : String)
    (clientCreate : String → CertificateRequest → Except String CertificateRequest) :
    Except String Unit × List Step :=
  match infos with
  | [] => (.error "no object passed to create certificaterequest", [])
  | _ :: _ :: _ => (.error "multiple objects passed to create certificaterequest", [])
  | [info] =>
    match convertToCertificate info with
    | .error e => (.error e, [])
    | .ok crt =>
      match apiutil.computeCertificateRequestName crt with
      | .error e =>
        (.error ("internal error hashing certificate spec: " ++ e.message), [])
      | .ok expectedReqName =>
        match pki.generatePrivateKeyForCertificate entropy crt with
        | .error _ => (.error "error when generating private key", [.nameComputed])
        | .ok signer =>
          match pki.encodePrivateKey signer crt.spec.keyEncoding with
          | .error _ =>
            (.error "error when encoding private key", [.nameComputed, .keyGenerated])
          | .ok keyData =>
            match buildCertificateRequestT crt expectedReqName keyData with
            | (.error e, tr) =>
              (.error e, [.nameComputed, .keyGenerated, .keyEncoded] ++ tr)
            | (.ok req, tr) =>
              let ns := if crt.ns = "" then cmdNamespace else crt.ns
              match clientCreate ns req with
              | .error e =>
                (.error ("error when creating CertifcateRequest through client: " ++ e),
                  [.nameComputed, .keyGenerated, .keyEncoded] ++ tr)
              | .ok _ =>
                (.ok (), [.nameComputed, .keyGenerated, .keyEncoded] ++ tr)

/-! ## Reference-heap view of the annotation-map construction

Go maps are references into a heap.  To state that
`buildCertificateRequest` never mutates its input certificate's map, the
annotation-building lines are replayed over an explicit store of map
references. -/

/-- A store of Go string-map references: allocated references are
`0, …, next-1`. -/
structure MapHeap where
  next : Nat
  store : Nat → List (String × String)

/-- `make(map[string]string, n)`: allocate a fresh empty map reference. -/
def heapAlloc (h : MapHeap) : Nat × MapHeap :=
  (h.next, ⟨h.next + 1, fun r => if r = h.next then [] else h.store r⟩)

/-- Assign a map value to a reference. -/
def heapWrite (h : MapHeap) (r : Nat) (m : List (String × String)) : MapHeap :=
  ⟨h.next, fun q => if q = r then m else h.store q⟩

/-- Lines 202–206 over the reference heap: allocate the fresh map, run the
copy loop into it, then write the two injected keys into the fresh map.
Returns the final heap and the fresh reference. -/
def buildAnnotsH (h : MapHeap) (crtAnnots : Nat) (secretName crtName : String) :
    MapHeap × Nat :=
  let (r, h1) := heapAlloc h
  let h2 := heapWrite h1 r (copyMap (h.store crtAnnots))
  let h3 := heapWrite h2 r (mapInsert (h2.store r) crPrivateKeyAnnotKey secretName)
  let h4 := heapWrite h3 r (mapInsert (h3.store r) certificateNameKey crtName)
  (h4, r)

/-! ## Concrete fixtures used by the witnesses -/

def getOkD : Except ε α → α → α
  | .ok a, _ => a
  | .error _, d => d

/-- The end-to-end demonstration certificate of the spec's scenario. -/
def demoCrt : Certificate :=
  { name := "web"
    ns := ""
    annots := [("team", "x")]
    labels := [("app", "web")]
    spec :=
      { commonName := "example.com"
        dnsNames := ["example.com"]
        secretName := "web-tls"
        duration := some 2160
        issuerRef := ⟨"ca-issuer", "Issuer", "cert-manager.io"⟩
        isCA := false
        usages := ["server auth"]
        keyAlgorithm := .rsa
        keySize := 2048
        keyEncoding := .pkcs1 } }

/-- A certificate requesting an unsupported algorithm: RSA with key size 0. -/
def demoBadCrt : Certificate :=
  { demoCrt with spec := { demoCrt.spec with keySize := 0 } }

/-- The key generated for `demoCrt` from entropy 5. -/
def demoKey : PrivateKey := ⟨.rsa, 2048, 5⟩

/-- The PKCS#1 encoding of `demoKey`. -/
def demoPk : List Nat := [0, 0, 2048, 5]

/-- The request identifier computed for `demoCrt`. -/
def demoName : String := getOkD (apiutil.computeCertificateRequestName demoCrt) ""

def emptyCertificateRequest : CertificateRequest :=
  ⟨"", [], [], ⟨[], none, ⟨"", "", ""⟩, false, []⟩⟩

/-- The record assembled for `demoCrt`. -/
def demoReq : CertificateRequest :=
  getOkD (buildCertificateRequest demoCrt demoName demoPk) emptyCertificateRequest

/-- The PEM text produced for `demoCrt`. -/
def demoPEM : List Char := getOkD (generateCSR demoCrt demoPk) []

/-- A two-reference heap: reference 0 holds `demoCrt`'s map. -/
def demoHeap : MapHeap :=
  ⟨1, fun r => if r = 0 then [("team", "x")] else []⟩

/-- `demoCrt` with no common name and no subject-alternative names: CSR
building fails on it. -/
def demoNoCNCrt : Certificate :=
  { demoCrt with spec := { demoCrt.spec with commonName := "", dnsNames := [] } }

/-- `demoCrt` with different labels, annotations and namespace — all fields
that are not issuance-relevant. -/
def demoRelabeledCrt : Certificate :=
  { demoCrt with labels := [], annots := [], ns := "other" }

/-- A client collaborator that accepts every submission. -/
def demoClient : String → CertificateRequest → Except String CertificateRequest :=
  fun _ req => .ok req

/-! ## Shared characterisation lemmas -/

/-- Successful `buildCertificateRequest` output, field by field. -/
theorem buildCertificateRequest_ok {crt : Certificate} {name : String}
    {pk : List Nat} {cr : CertificateRequest}
    (h : buildCertificateRequest crt name pk = .ok cr) :
    cr.generateName = crt.name ++ "-" ∧
    cr.annots = buildAnnots crt.annots crt.spec.secretName crt.name ∧
    cr.labels = crt.labels ∧
    generateCSR crt pk = .ok cr.spec.csrPEM ∧
    cr.spec.duration = crt.spec.duration ∧
    cr.spec.issuerRef = crt.spec.issuerRef ∧
    cr.spec.isCA = crt.spec.isCA ∧
    cr.spec.usages = crt.spec.usages := by
  unfold buildCertificateRequest buildCertificateRequestT at h
  unfold generateCSR
  rcases hg : generateCSRT crt pk with ⟨res, tr⟩
  rw [hg] at h
  rcases res with e | csrPEM
  · simp at h
  · simp only at h
    injection h with h
    subst h
    simp

/-- Lookup characterisation of the assembled annotation map. -/
theorem mapLookup_buildAnnots (m : List (String × String)) (s n k : String)
    (hm : (m.map Prod.fst).Nodup) :
    mapLookup (buildAnnots m s n) k =
      if certificateNameKey = k then some n
      else if crPrivateKeyAnnotKey = k then some s
      else mapLookup m k := by
  rw [buildAnnots, mapLookup_mapInsert, mapLookup_mapInsert, copyMap_eq m hm]

/-- Decoding a key block produced by the encoder recovers the key. -/
theorem decode_encode (k : PrivateKey) (e : KeyEncoding) :
    pki.decodePrivateKeyBytes [pki.encTag e, algByte k.alg, k.size, k.material] =
      .ok k := by
  obtain ⟨alg, s, m⟩ := k
  cases alg <;> cases e <;>
    simp [pki.decodePrivateKeyBytes, pki.encTag, algByte]

/-! ## The claims -/

/-- C2: For every Certificate spec for which CSR generation succeeds,
`buildCertificateRequest` returns a record whose generate-name seed is the
spec's name followed by the separator "-", whose annotation map is exactly
the spec's annotations plus the two injected keys binding the spec's
secret-name and name, whose labels equal the spec's labels, and whose spec
fields are the generated CSR PEM together with the duration, issuer
reference, CA flag and usages copied unchanged from the input spec. -/
theorem claim_C2 (crt : Certificate) (name : String) (pk : List Nat)
    (cr : CertificateRequest) (hnd : (crt.annots.map Prod.fst).Nodup)
    (h : buildCertificateRequest crt name pk = .ok cr) :
    cr.generateName = crt.name ++ "-" ∧
    (∀ k, mapLookup cr.annots k =
      if certificateNameKey = k then some crt.name
      else if crPrivateKeyAnnotKey = k then some crt.spec.secretName
      else mapLookup crt.annots k) ∧
    cr.labels = crt.labels ∧
    generateCSR crt pk = .ok cr.spec.csrPEM ∧
    cr.spec.duration = crt.spec.duration ∧
    cr.spec.issuerRef = crt.spec.issuerRef ∧
    cr.spec.isCA = crt.spec.isCA ∧
    cr.spec.usages = crt.spec.usages := by
  obtain ⟨h1, h2, h3, h4, h5, h6, h7, h8⟩ := buildCertificateRequest_ok h
  refine ⟨h1, ?_, h3, h4, h5, h6, h7, h8⟩
  intro k
  rw [h2, mapLookup_buildAnnots crt.annots _ _ k hnd]

/-- Witness for C2 at the demonstration certificate. -/
theorem claim_C2_witness :
    (demoCrt.annots.map Prod.fst).Nodup ∧
    buildCertificateRequest demoCrt demoName demoPk = .ok demoReq ∧
    demoReq.generateName = demoCrt.name ++ "-" ∧
    mapLookup demoReq.annots certificateNameKey = some demoCrt.name :=
  ⟨by decide, rfl,
    (claim_C2 demoCrt demoName demoPk demoReq (by decide) rfl).1,
    by
      have hk :=
        (claim_C2 demoCrt demoName demoPk demoReq (by decide) rfl).2.1 certificateNameKey
      rw [hk]
      simp⟩

/-- C1 counterexample: the assembler does not incorporate the computed
RequestIdentifier into the record — at the demonstration input the
assembled record is unchanged when the computed name argument is replaced
by a different string, and the record's generate-name seed differs from the
identifier. -/
theorem claim_C1_counterexample :
    apiutil.computeCertificateRequestName demoCrt = .ok demoName ∧
    buildCertificateRequest demoCrt demoName demoPk =
      buildCertificateRequest demoCrt (demoName ++ "X") demoPk ∧
    demoName ≠ demoName ++ "X" ∧
    demoReq.generateName ≠ demoName :=
  ⟨rfl, rfl, by decide, by decide⟩

/-- C1 (amended): the pipeline passes the computed RequestIdentifier to the
assembler, but the assembler ignores it — the assembled record is the same
for any two name arguments — and on success the record merges the signed
CSR with the spec fields, its generate-name seed being the spec's name plus
the separator. -/
theorem claim_C1_amended (crt : Certificate) (n₁ n₂ : String) (pk : List Nat) :
    buildCertificateRequest crt n₁ pk = buildCertificateRequest crt n₂ pk ∧
    ∀ cr, buildCertificateRequest crt n₁ pk = .ok cr →
      generateCSR crt pk = .ok cr.spec.csrPEM ∧ cr.generateName = crt.name ++ "-" := by
  refine ⟨rfl, ?_⟩
  intro cr h
  obtain ⟨h1, -, -, h4, -⟩ := buildCertificateRequest_ok h
  exact ⟨h4, h1⟩

/-- Witness for the amended C1. -/
theorem claim_C1_amended_witness :
    buildCertificateRequest demoCrt demoName demoPk =
      buildCertificateRequest demoCrt "other-name" demoPk ∧
    (generateCSR demoCrt demoPk = .ok demoReq.spec.csrPEM ∧
      demoReq.generateName = demoCrt.name ++ "-") :=
  ⟨(claim_C1_amended demoCrt demoName "other-name" demoPk).1,
    (claim_C1_amended demoCrt demoName "other-name" demoPk).2 demoReq rfl⟩

/-- C10: `buildCertificateRequest` never mutates its input certificate's
annotation map — replayed over an explicit reference heap, the construction
allocates a fresh reference, every previously allocated reference (in
particular the input's) still holds its old value afterwards, and the fresh
reference holds the copied entries plus the two injected keys, i.e. exactly
the pure `buildAnnots` value used by `buildCertificateRequestT`. -/
theorem claim_C10 (h : MapHeap) (a : Nat) (s n : String) (hv : a < h.next) :
    (buildAnnotsH h a s n).2 = h.next ∧
    (∀ q, q < h.next → ((buildAnnotsH h a s n).1).store q = h.store q) ∧
    ((buildAnnotsH h a s n).1).store (buildAnnotsH h a s n).2 =
      buildAnnots (h.store a) s n ∧
    ((buildAnnotsH h a s n).1).store a = h.store a := by
  refine ⟨rfl, ?_, ?_, ?_⟩
  · intro q hq
    have hne : ¬ q = h.next := by omega
    simp [buildAnnotsH, heapAlloc, heapWrite, hne]
  · simp [buildAnnotsH, heapAlloc, heapWrite, buildAnnots]
  · have hne : ¬ a = h.next := by omega
    simp [buildAnnotsH, heapAlloc, heapWrite, hne]

/-- Witness for C10 on a concrete heap. -/
theorem claim_C10_witness :
    0 < demoHeap.next ∧
    ((buildAnnotsH demoHeap 0 "web-tls" "web").1).store 0 = demoHeap.store 0 ∧
    ((buildAnnotsH demoHeap 0 "web-tls" "web").1).store
        (buildAnnotsH demoHeap 0 "web-tls" "web").2 =
      buildAnnots (demoHeap.store 0) "web-tls" "web" :=
  ⟨by decide, (claim_C10 demoHeap 0 "web-tls" "web" (by decide)).2.2.2,
    (claim_C10 demoHeap 0 "web-tls" "web" (by decide)).2.2.1⟩

/-- C4: for every successfully signed CSR, the pipeline's textual output is
the DER-encoded signed CSR wrapped in the standard PEM envelope with the
fixed block label "CERTIFICATE REQUEST", and this envelope parses back to
exactly the DER bytes that were wrapped. -/
theorem claim_C4 (crt : Certificate) (pk : List Nat) (out : List Char)
    (h : generateCSR crt pk = .ok out) :
    ∃ der, out = pemEncodeToMemory "CERTIFICATE REQUEST".toList der ∧
      pemDecode out = some ("CERTIFICATE REQUEST".toList, der) := by
  unfold generateCSR generateCSRT at h
  rcases hb : pki.generateCSR crt with e | csr <;> rw [hb] at h
  · simp at h
  rcases hd : pki.decodePrivateKeyBytes pk with e | signer <;> rw [hd] at h
  · simp at h
  simp only [pki.encodeCSR] at h
  injection h with h
  refine ⟨serializeSignedCSR ⟨csr, publicKeyOf signer, sigOf signer csr⟩, h.symm, ?_⟩
  rw [← h]
  exact pemDecode_pemEncodeToMemory _ _ (serializeSignedCSR_lt _) (by decide)

/-- Witness for C4 at the demonstration certificate. -/
theorem claim_C4_witness :
    generateCSR demoCrt demoPk = .ok demoPEM ∧
    ∃ der, demoPEM = pemEncodeToMemory "CERTIFICATE REQUEST".toList der ∧
      pemDecode demoPEM = some ("CERTIFICATE REQUEST".toList, der) :=
  ⟨rfl, claim_C4 demoCrt demoPk demoPEM rfl⟩

/-- C5: decoding the encoding of a private key yields the key back for
every supported encoding; in particular the key obtained in `generateCSR`
by decoding the encoded key bytes equals the key originally produced by the
key generator, so the CSR is signed with the generated key. -/
theorem claim_C5 (k : PrivateKey) (e : KeyEncoding) (bz : List Nat)
    (h : pki.encodePrivateKey k e = .ok bz) :
    pki.decodePrivateKeyBytes bz = .ok k ∧
    ∀ (entropy : Nat) (crt : Certificate),
      pki.generatePrivateKeyForCertificate entropy crt = .ok k →
      pki.decodePrivateKeyBytes bz = .ok k := by
  have hmain : pki.decodePrivateKeyBytes bz = .ok k := by
    simp only [pki.encodePrivateKey] at h
    injection h with h
    rw [← h]
    exact decode_encode k e
  exact ⟨hmain, fun _ _ _ => hmain⟩

/-- Witness for C5 at the demonstration key. -/
theorem claim_C5_witness :
    pki.encodePrivateKey demoKey .pkcs1 = .ok demoPk ∧
    pki.generatePrivateKeyForCertificate 5 demoCrt = .ok demoKey ∧
    pki.decodePrivateKeyBytes demoPk = .ok demoKey :=
  ⟨rfl, rfl, (claim_C5 demoKey .pkcs1 demoPk rfl).2 5 demoCrt rfl⟩

/-- C6: the public key embedded in every signed CSR the pipeline produces
matches the private key that signed it (the signer is the key decoded from
the encoded key bytes), and the pipeline rejects a key whose encoding does
not decode: no signed CSR is produced then. -/
theorem claim_C6 (crt : Certificate) (pk : List Nat) (out : List Char) :
    (generateCSR crt pk = .ok out →
      ∃ csr k, pki.generateCSR crt = .ok csr ∧
        pki.decodePrivateKeyBytes pk = .ok k ∧
        out = pemEncodeToMemory "CERTIFICATE REQUEST".toList
          (serializeSignedCSR ⟨csr, publicKeyOf k, sigOf k csr⟩)) ∧
    (∀ e, pki.decodePrivateKeyBytes pk = .error e → generateCSR crt pk ≠ .ok out) := by
  constructor
  · intro h
    unfold generateCSR generateCSRT at h
    rcases hb : pki.generateCSR crt with e | csr <;> rw [hb] at h
    · simp at h
    rcases hd : pki.decodePrivateKeyBytes pk with e | signer <;> rw [hd] at h
    · simp at h
    simp only [pki.encodeCSR] at h
    injection h with h
    exact ⟨csr, signer, rfl, rfl, h.symm⟩
  · intro e he h
    unfold generateCSR generateCSRT at h
    rcases hb : pki.generateCSR crt with e' | csr <;> rw [hb] at h
    · simp at h
    rw [he] at h
    simp at h

/-- Witness for C6 at the demonstration certificate. -/
theorem claim_C6_witness :
    generateCSR demoCrt demoPk = .ok demoPEM ∧
    ∃ csr k, pki.generateCSR demoCrt = .ok csr ∧
      pki.decodePrivateKeyBytes demoPk = .ok k ∧
      demoPEM = pemEncodeToMemory "CERTIFICATE REQUEST".toList
        (serializeSignedCSR ⟨csr, publicKeyOf k, sigOf k csr⟩) :=
  ⟨rfl, (claim_C6 demoCrt demoPk demoPEM).1 rfl⟩

/-- C3: a failing pipeline step terminates the invocation with an error, no
later step runs, and no key, CSR or record is produced: an unsupported
algorithm choice (in particular a key size of 0) stops the pipeline right
after name computation, and a CSR-build failure on a supported key stops it
right after key encoding, surfacing that step's error. -/
theorem claim_C3 (crt : Certificate) (entropy : Nat) (ns : String)
    (cc : String → CertificateRequest → Except String CertificateRequest) :
    (supportedKeyParameters crt.spec.keyAlgorithm crt.spec.keySize = false →
      run [RuntimeObject.certificate crt] entropy ns cc =
        (.error "error when generating private key", [.nameComputed])) ∧
    (crt.spec.keySize = 0 →
      run [RuntimeObject.certificate crt] entropy ns cc =
        (.error "error when generating private key", [.nameComputed])) ∧
    (∀ e, supportedKeyParameters crt.spec.keyAlgorithm crt.spec.keySize = true →
      pki.generateCSR crt = .error e →
      run [RuntimeObject.certificate crt] entropy ns cc =
        (.error e.message, [.nameComputed, .keyGenerated, .keyEncoded])) := by
  have key : supportedKeyParameters crt.spec.keyAlgorithm crt.spec.keySize = false →
      run [RuntimeObject.certificate crt] entropy ns cc =
        (.error "error when generating private key", [.nameComputed]) := by
    intro h
    simp [run, convertToCertificate, apiutil.computeCertificateRequestName,
      pki.generatePrivateKeyForCertificate, h]
  refine ⟨key, ?_, ?_⟩
  · intro h0
    apply key
    rw [h0]
    cases crt.spec.keyAlgorithm <;> decide
  · intro e hsup hb
    simp [run, convertToCertificate, apiutil.computeCertificateRequestName,
      pki.generatePrivateKeyForCertificate, hsup, pki.encodePrivateKey,
      buildCertificateRequestT, generateCSRT, hb]

/-- Witness for C3: the key-size-0 certificate and the no-subject
certificate. -/
theorem claim_C3_witness :
    supportedKeyParameters demoBadCrt.spec.keyAlgorithm demoBadCrt.spec.keySize = false ∧
    run [RuntimeObject.certificate demoBadCrt] 5 "default" demoClient =
      (.error "error when generating private key", [.nameComputed]) ∧
    supportedKeyParameters demoNoCNCrt.spec.keyAlgorithm demoNoCNCrt.spec.keySize = true ∧
    pki.generateCSR demoNoCNCrt = .error .invalidSpec ∧
    run [RuntimeObject.certificate demoNoCNCrt] 5 "default" demoClient =
      (.error PkiError.invalidSpec.message,
        [.nameComputed, .keyGenerated, .keyEncoded]) :=
  ⟨by decide, (claim_C3 demoBadCrt 5 "default" demoClient).1 (by decide),
    by decide, rfl,
    (claim_C3 demoNoCNCrt 5 "default" demoClient).2.2 .invalidSpec (by decide) rfl⟩

/-- C7: the pipeline performs its steps in the fixed order name
computation, key generation, key encoding, CSR build, CSR signing, record
assembly: every execution trace is a prefix of the canonical step list, a
failure leaves the trace a proper prefix (no later step of the invocation
executes), and a successful invocation has completed all six steps. -/
theorem claim_C7 (infos : List RuntimeObject) (entropy : Nat) (ns : String)
    (cc : String → CertificateRequest → Except String CertificateRequest) :
    ∃ k, k ≤ 6 ∧ (run infos entropy ns cc).2 = canonicalSteps.take k ∧
      ((run infos entropy ns cc).1 = .ok () → k = 6) := by
  rcases infos with _ | ⟨info, _ | ⟨i2, rest⟩⟩
  · exact ⟨0, by omega, rfl, fun h => by simp [run] at h⟩
  · rcases info with crt | kind
    · rcases hgen : pki.generatePrivateKeyForCertificate entropy crt with e | signer
      · have hrun : run [RuntimeObject.certificate crt] entropy ns cc =
            (.error "error when generating private key", [.nameComputed]) := by
          simp [run, convertToCertificate, apiutil.computeCertificateRequestName, hgen]
        exact ⟨1, by omega, by rw [hrun]; rfl, fun h => by rw [hrun] at h; simp at h⟩
      · rcases hb : pki.generateCSR crt with e | csr
        · have hrun : run [RuntimeObject.certificate crt] entropy ns cc =
              (.error e.message, [.nameComputed, .keyGenerated, .keyEncoded]) := by
            simp [run, convertToCertificate, apiutil.computeCertificateRequestName,
              pki.encodePrivateKey, buildCertificateRequestT, generateCSRT, hgen, hb]
          exact ⟨3, by omega, by rw [hrun]; rfl, fun h => by rw [hrun] at h; simp at h⟩
        · have hrun2 : (run [RuntimeObject.certificate crt] entropy ns cc).2 =
              [Step.nameComputed, .keyGenerated, .keyEncoded, .csrBuilt, .csrSigned,
                .requestAssembled] := by
            simp only [run, convertToCertificate, apiutil.computeCertificateRequestName,
              pki.encodePrivateKey, buildCertificateRequestT, generateCSRT,
              pki.encodeCSR, hgen, hb, decode_encode]
            split <;> rfl
          exact ⟨6, by omega, by rw [hrun2]; rfl, fun _ => rfl⟩
    · exact ⟨0, by omega, rfl, fun h => by simp [run, convertToCertificate] at h⟩
  · exact ⟨0, by omega, rfl, fun h => by simp [run] at h⟩

/-- Witness for C7: a successful end-to-end invocation completes all six
steps in order. -/
theorem claim_C7_witness :
    (run [RuntimeObject.certificate demoCrt] 5 "default" demoClient).1 = .ok () ∧
    ∃ k, k ≤ 6 ∧
      (run [RuntimeObject.certificate demoCrt] 5 "default" demoClient).2 =
        canonicalSteps.take k ∧
      ((run [RuntimeObject.certificate demoCrt] 5 "default" demoClient).1 = .ok () →
        k = 6) :=
  ⟨rfl, claim_C7 [RuntimeObject.certificate demoCrt] 5 "default" demoClient⟩

/-- C8: the request-name computation is deterministic: on two certificates
that agree on all issuance-relevant fields it returns the same identifier,
which is the pure function `requestNameOf` of those fields. -/
theorem claim_C8 (c₁ c₂ : Certificate)
    (h : issuanceRelevant c₁ = issuanceRelevant c₂) :
    apiutil.computeCertificateRequestName c₁ =
      apiutil.computeCertificateRequestName c₂ ∧
    apiutil.computeCertificateRequestName c₁ =
      .ok (requestNameOf (issuanceRelevant c₁)) := by
  unfold apiutil.computeCertificateRequestName
  rw [h]
  exact ⟨rfl, rfl⟩

/-- Witness for C8: two certificates differing only in labels, annotations
and namespace get the same identifier. -/
theorem claim_C8_witness :
    issuanceRelevant demoCrt = issuanceRelevant demoRelabeledCrt ∧
    demoCrt ≠ demoRelabeledCrt ∧
    apiutil.computeCertificateRequestName demoCrt =
      apiutil.computeCertificateRequestName demoRelabeledCrt :=
  ⟨rfl, by decide, (claim_C8 demoCrt demoRelabeledCrt rfl).1⟩

/-- C9: `Run` accepts exactly one input object: an empty resolved input is
rejected with the no-object error and an input of two or more objects with
the multiple-objects error, in both cases before any pipeline step runs
(the trace is empty, so no key is generated and no record is created). -/
theorem claim_C9 (infos : List RuntimeObject) (entropy : Nat) (ns : String)
    (cc : String → CertificateRequest → Except String CertificateRequest) :
    (infos = [] → run infos entropy ns cc =
      (.error "no object passed to create certificaterequest", [])) ∧
    (2 ≤ infos.length → run infos entropy ns cc =
      (.error "multiple objects passed to create certificaterequest", [])) := by
  constructor
  · rintro rfl
    rfl
  · intro hlen
    rcases infos with _ | ⟨a, _ | ⟨b, rest⟩⟩
    · simp at hlen
    · simp at hlen
    · rfl

/-- Witness for C9 on concrete zero- and two-object inputs. -/
theorem claim_C9_witness :
    run [] 0 "" demoClient =
      (.error "no object passed to create certificaterequest", []) ∧
    2 ≤ [RuntimeObject.other "a", RuntimeObject.other "b"].length ∧
    run [RuntimeObject.other "a", RuntimeObject.other "b"] 0 "" demoClient =
      (.error "multiple objects passed to create certificaterequest", []) :=
  ⟨(claim_C9 [] 0 "" demoClient).1 rfl, by decide,
    (claim_C9 [RuntimeObject.other "a", RuntimeObject.other "b"] 0 "" demoClient).2
      (by decide)⟩

end CertMgr
